import Mathlib

/-!
Verification of the exchange-contract core (account ledger, constant-product
pool engine, withdrawal settlement) against its Rust source.

Shallow embedding conventions:
* `u128` balances are embedded as `Nat`; arithmetic that stays inside the
  `u128` range is exact, and theorems carry explicit `< 2 ^ 128` bounds on the
  inputs wherever a conclusion depends on a value being `u128`-representable.
* The `uint` crate's `U256` operations abort on overflow, and `U256.as_u128`
  aborts when the value does not fit in 128 bits; both aborts are modelled
  explicitly (`mul256`, `as_u128`) because they are reachable from valid
  `u128` inputs.  `U256` products of two `u128` values are below `2 ^ 256` and
  are embedded as plain `Nat` multiplication.
* A contract panic / failed assertion rolls back the whole operation, so every
  fallible operation returns `Except Err …` and an `Except.error` outcome
  carries no state change.
* `near_sdk` `LookupMap` / `UnorderedMap` collections are embedded as
  association lists with unique keys (`mapGet` / `mapInsert` / `mapRemove`).
* `env::storage_byte_cost()` is host configuration and is passed explicitly as
  the `bc` argument of the ledger operations.
-/

set_option maxHeartbeats 1000000

namespace RefExchange

/-- Error outcomes of the contract; each constructor models one panic or
assertion message of the Rust source (e.g. `zeroAmount` is the E31 panic,
`notEnoughTokens` the E22 panic, `invalid` the ERR_INVALID panic). -/
inductive Err where
  | wrongTokenCount
  | zeroAmount
  | zeroShares
  | lpAlreadyRegistered
  | lpNotRegistered
  | noShares
  | notEnoughShares
  | minAmount
  | missingToken
  | invalid
  | feeTooLarge
  | overflow
  | divByZero
  | insufficientStorage
  | nonZeroTokenBalance
  | tokenNotRegistered
  | illegalWithdrawAmount
  | notEnoughTokens
  | callbackInvalid
  | accountNotRegistered
  | nonWhitelistedLostfound
  | amountMustBePositive
  | msgMustBeEmpty
  deriving DecidableEq

/-- Upper bound of the `u128` range. -/
def U128_BOUND : Nat := 2 ^ 128

/-- Upper bound of the `U256` range. -/
def U256_BOUND : Nat := 2 ^ 256

/-- Models `U256.as_u128` of the `uint` crate: aborts when the value does not
fit into 128 bits. -/
def as_u128 (x : Nat) : Except Err Nat :=
  if x < U128_BOUND then .ok x else .error .overflow

/-- Models a `U256` multiplication: aborts on 256-bit overflow (the `uint`
crate's `Mul` panics on overflow).  Used only where both factors can be large
enough for the product of valid `u128`-derived operands to reach `2 ^ 256`. -/
def mul256 (x y : Nat) : Except Err Nat :=
  if x * y < U256_BOUND then .ok (x * y) else .error .overflow

/-- Association-list lookup; models `LookupMap::get` / `UnorderedMap::get`. -/
def mapGet {α : Type} (m : List (String × α)) (k : String) : Option α :=
  match m with
  | [] => none
  | (k', v) :: rest => if k' = k then some v else mapGet rest k

/-- Association-list insert: replaces the (unique) existing entry or appends a
new one; models `LookupMap::insert` / `UnorderedMap::insert`. -/
def mapInsert {α : Type} (m : List (String × α)) (k : String) (v : α) :
    List (String × α) :=
  match m with
  | [] => [(k, v)]
  | (k', v') :: rest =>
    if k' = k then (k, v) :: rest else (k', v') :: mapInsert rest k v

/-- Association-list removal of the (unique) entry with the given key; models
`UnorderedMap::remove`. -/
def mapRemove {α : Type} (m : List (String × α)) (k : String) :
    List (String × α) :=
  match m with
  | [] => []
  | (k', v') :: rest => if k' = k then rest else (k', v') :: mapRemove rest k

/-- Sum of all values stored in an association list. -/
def sumVals (m : List (String × Nat)) : Nat :=
  (m.map Prod.snd).sum

/-- Fee divisor (`utils.rs`): fees are expressed in basis points. -/
def FEE_DIVISOR : Nat := 10000

/-- `simple_pool.rs`: shares minted on the first liquidity deposit. -/
def INIT_SHARES_SUPPLY : Nat := 1000000000000000000000000

/-- `utils::add_to_collection`: adds `v` to the value stored under `k`,
treating a missing entry as `0`. -/
def add_to_collection (m : List (String × Nat)) (k : String) (v : Nat) :
    List (String × Nat) :=
  mapInsert m k ((mapGet m k).getD 0 + v)

/-- The constant-product pool (`simple_pool.rs::SimplePool`).  `amounts` are
the token reserves; `volumes` pairs are (input, output) cumulative volumes. -/
structure SimplePool where
  token_account_ids : List String
  amounts : List Nat
  volumes : List (Nat × Nat)
  total_fee : Nat
  exchange_fee : Nat
  referral_fee : Nat
  shares : List (String × Nat)
  shares_total_supply : Nat
  deriving DecidableEq

namespace SimplePool

/-- `SimplePool::new`: requires `total_fee < FEE_DIVISOR` and exactly two
tokens; starts with zero reserves, no registered share holders and zero total
share supply. -/
def new (token_account_ids : List String) (total_fee exchange_fee referral_fee : Nat) :
    Except Err SimplePool :=
  if FEE_DIVISOR ≤ total_fee then .error .feeTooLarge
  else if token_account_ids.length ≠ 2 then .error .wrongTokenCount
  else .ok
    { token_account_ids := token_account_ids
      amounts := List.replicate token_account_ids.length 0
      volumes := List.replicate token_account_ids.length (0, 0)
      total_fee := total_fee
      exchange_fee := exchange_fee
      referral_fee := referral_fee
      shares := []
      shares_total_supply := 0 }

/-- `SimplePool::share_register`: aborts with E14 if the account already has a
share entry, otherwise inserts a zero balance. -/
def share_register (p : SimplePool) (account_id : String) : Except Err SimplePool :=
  if (mapGet p.shares account_id).isSome then .error .lpAlreadyRegistered
  else .ok { p with shares := mapInsert p.shares account_id 0 }

/-- `SimplePool::share_transfer`: aborts with ERR_NO_SHARES if the sender has
no entry, with ERR_NOT_ENOUGH_SHARES if the balance is insufficient, and with
E13 if the receiver has no entry (no auto-create). -/
def share_transfer (p : SimplePool) (sender_id receiver_id : String) (amount : Nat) :
    Except Err SimplePool :=
  match mapGet p.shares sender_id with
  | none => .error .noShares
  | some balance =>
    if balance < amount then .error .notEnoughShares
    else
      match mapGet (mapInsert p.shares sender_id (balance - amount)) receiver_id with
      | none => .error .lpNotRegistered
      | some balance_out =>
        .ok { p with shares := mapInsert (mapInsert p.shares sender_id (balance - amount)) receiver_id (balance_out + amount) }

/-- `SimplePool::mint_shares`: no-op for zero shares, otherwise adds to the
total supply and to the recipient's entry (creating it if absent). -/
def mint_shares (p : SimplePool) (account_id : String) (shares : Nat) : SimplePool :=
  if shares = 0 then p
  else
    { p with
      shares_total_supply := p.shares_total_supply + shares
      shares := add_to_collection p.shares account_id shares }

/-- First loop of `add_liquidity` (the `shares_total_supply > 0` branch):
asserts each requested amount is positive (E31) and folds
`min` over `requested[i] * shares_total / reserves[i]`, starting from
`U256::max_value()`.  A zero reserve makes the Rust `U256` division panic,
modelled by `divByZero`. -/
def fair_supply_loop (requested reserves : List Nat) (total acc : Nat) :
    Except Err Nat :=
  match requested, reserves with
  | [], [] => .ok acc
  | a :: rqs, r :: rvs =>
    if a = 0 then .error .zeroAmount
    else if r = 0 then .error .divByZero
    else fair_supply_loop rqs rvs total (min acc (a * total / r))
  | _, _ => .error .wrongTokenCount

/-- Second loop of `add_liquidity`: per token computes
`amount = reserves[i] * fair_supply / shares_total` (`as_u128` of a `U256`
quotient), asserts it positive (E31), adds it to the reserve and records it as
the actual consumed amount.  Returns (new reserves, actual amounts). -/
def actual_loop (reserves : List Nat) (fair total : Nat) :
    Except Err (List Nat × List Nat) :=
  match reserves with
  | [] => .ok ([], [])
  | r :: rvs =>
    match as_u128 (r * fair / total) with
    | .error e => .error e
    | .ok amount =>
      if amount = 0 then .error .zeroAmount
      else
        match actual_loop rvs fair total with
        | .error e => .error e
        | .ok (rvs', acts) => .ok ((r + amount) :: rvs', amount :: acts)

/-- `SimplePool::add_liquidity`: returns the updated pool, the actual amounts
written back into the caller's vector, and the number of minted shares. -/
def add_liquidity (p : SimplePool) (sender_id : String) (amounts : List Nat) :
    Except Err (SimplePool × List Nat × Nat) :=
  if amounts.length ≠ p.token_account_ids.length then .error .wrongTokenCount
  else if 0 < p.shares_total_supply then
    match fair_supply_loop amounts p.amounts p.shares_total_supply (U256_BOUND - 1) with
    | .error e => .error e
    | .ok fair =>
      match actual_loop p.amounts fair p.shares_total_supply with
      | .error e => .error e
      | .ok (newAmounts, acts) =>
        match as_u128 fair with
        | .error e => .error e
        | .ok shares =>
          if shares = 0 then .error .zeroShares
          else .ok (mint_shares { p with amounts := newAmounts } sender_id shares, acts, shares)
  else
    if INIT_SHARES_SUPPLY = 0 then .error .zeroShares
    else
      .ok (mint_shares { p with amounts := List.zipWith (fun x y => x + y) p.amounts amounts } sender_id INIT_SHARES_SUPPLY, amounts, INIT_SHARES_SUPPLY)

/-- Loop of `remove_liquidity`: per token computes
`amount = reserves[i] * shares / shares_total` (`as_u128` of a `U256`
quotient, panicking division by a zero total supply modelled by `divByZero`),
checks the slippage bound (ERR_MIN_AMOUNT) and subtracts the amount from the
reserve.  Returns (new reserves, returned amounts). -/
def remove_loop (reserves min_amounts : List Nat) (shares total : Nat) :
    Except Err (List Nat × List Nat) :=
  match reserves, min_amounts with
  | [], [] => .ok ([], [])
  | r :: rvs, m :: ms =>
    if total = 0 then .error .divByZero
    else
      match as_u128 (r * shares / total) with
      | .error e => .error e
      | .ok amount =>
        if amount < m then .error .minAmount
        else
          match remove_loop rvs ms shares total with
          | .error e => .error e
          | .ok (rvs', res) => .ok ((r - amount) :: rvs', amount :: res)
  | _, _ => .error .wrongTokenCount

/-- `SimplePool::remove_liquidity`: aborts with ERR_NO_SHARES if the sender
has no entry and ERR_NOT_ENOUGH_SHARES if the balance is insufficient; burns
the shares (setting the balance to exactly 0 on full withdrawal) and returns
the withdrawn amounts. -/
def remove_liquidity (p : SimplePool) (sender_id : String) (shares : Nat)
    (min_amounts : List Nat) : Except Err (SimplePool × List Nat) :=
  if min_amounts.length ≠ p.token_account_ids.length then .error .wrongTokenCount
  else
    match mapGet p.shares sender_id with
    | none => .error .noShares
    | some prev_shares_amount =>
      if prev_shares_amount < shares then .error .notEnoughShares
      else
        match remove_loop p.amounts min_amounts shares p.shares_total_supply with
        | .error e => .error e
        | .ok (newAmounts, result) =>
          .ok ({ p with
                  amounts := newAmounts
                  shares := mapInsert p.shares sender_id
                    (if prev_shares_amount = shares then 0 else prev_shares_amount - shares)
                  shares_total_supply := p.shares_total_supply - shares }, result)

/-- `SimplePool::internal_get_return`: quotes a swap by token indices.  The
single ERR_INVALID assertion covers positive reserves, distinct tokens and a
positive input; the product `amount_with_fee * out_balance` genuinely can
overflow 256 bits for valid `u128` inputs and goes through `mul256`; the final
quotient goes through `as_u128`.  Out-of-range indices (impossible through
`get_return`) are mapped to `missingToken`. -/
def internal_get_return (p : SimplePool) (token_in amount_in token_out : Nat) :
    Except Err Nat :=
  if token_in < p.amounts.length ∧ token_out < p.amounts.length then
    if 0 < p.amounts.getD token_in 0 ∧ 0 < p.amounts.getD token_out 0 ∧
        token_in ≠ token_out ∧ 0 < amount_in then
      match mul256 (amount_in * (FEE_DIVISOR - p.total_fee))
          (p.amounts.getD token_out 0) with
      | .error e => .error e
      | .ok prod =>
        as_u128 (prod / (FEE_DIVISOR * p.amounts.getD token_in 0 +
          amount_in * (FEE_DIVISOR - p.total_fee)))
    else .error .invalid
  else .error .missingToken

/-- `SimplePool::token_index`: position of a token id in the pool's token
list; aborts with ERR_MISSING_TOKEN when absent. -/
def token_index (p : SimplePool) (token_id : String) : Except Err Nat :=
  match List.findIdx? (fun t => t = token_id) p.token_account_ids with
  | some i => .ok i
  | none => .error .missingToken

/-- `SimplePool::get_return`: public swap quote by token account ids. -/
def get_return (p : SimplePool) (token_in : String) (amount_in : Nat)
    (token_out : String) : Except Err Nat :=
  match p.token_index token_in with
  | .error e => .error e
  | .ok i =>
    match p.token_index token_out with
    | .error e => .error e
    | .ok j => p.internal_get_return i amount_in j

end SimplePool

/-- Pool states reachable from `SimplePool::new` through any sequence of
successful `share_register`, `add_liquidity`, `remove_liquidity` and
`share_transfer` operations. -/
inductive Reachable : SimplePool → Prop where
  | created (tokens : List String) (fee ef rf : Nat) (p : SimplePool) :
      SimplePool.new tokens fee ef rf = .ok p → Reachable p
  | registered (p : SimplePool) (acc : String) (p' : SimplePool) :
      Reachable p → p.share_register acc = .ok p' → Reachable p'
  | added (p : SimplePool) (s : String) (a : List Nat)
      (r : SimplePool × List Nat × Nat) :
      Reachable p → p.add_liquidity s a = .ok r → Reachable r.1
  | removed (p : SimplePool) (s : String) (sh : Nat) (ma : List Nat)
      (r : SimplePool × List Nat) :
      Reachable p → p.remove_liquidity s sh ma = .ok r → Reachable r.1
  | transferred (p : SimplePool) (f t : String) (a : Nat) (p' : SimplePool) :
      Reachable p → p.share_transfer f t a = .ok p' → Reachable p'

/-! Storage byte constants of `lib.rs`.  `env::storage_byte_cost()` is host
configuration and appears as the explicit `bc` argument below. -/

/-- `lib.rs::U128_STORAGE`. -/
def U128_STORAGE : Nat := 16

/-- `lib.rs::U64_STORAGE`. -/
def U64_STORAGE : Nat := 8

/-- `lib.rs::U32_STORAGE`. -/
def U32_STORAGE : Nat := 4

/-- `lib.rs::ACC_ID_STORAGE`. -/
def ACC_ID_STORAGE : Nat := 64

/-- `lib.rs::ACC_ID_AS_KEY_STORAGE`. -/
def ACC_ID_AS_KEY_STORAGE : Nat := ACC_ID_STORAGE + 4

/-- `lib.rs::KEY_PREFIX_ACC`. -/
def KEY_PREFIX_ACC : Nat := 64

/-- `lib.rs::ACC_ID_AS_CLT_KEY_STORAGE`. -/
def ACC_ID_AS_CLT_KEY_STORAGE : Nat := ACC_ID_AS_KEY_STORAGE + 1

/-- `lib.rs::INIT_ACCOUNT_STORAGE`. -/
def INIT_ACCOUNT_STORAGE : Nat :=
  ACC_ID_AS_CLT_KEY_STORAGE + 1 + U128_STORAGE + U32_STORAGE + U64_STORAGE

/-- `lib.rs::Account`: rent balance in yoctoNEAR plus per-token balances. -/
structure Account where
  near_amount : Nat
  tokens : List (String × Nat)
  deriving DecidableEq

namespace Account

/-- `Account::new`: zero rent balance and no token entries. -/
def new : Account :=
  { near_amount := 0, tokens := [] }

/-- `Account::get_balance`. -/
def get_balance (a : Account) (token_id : String) : Option Nat :=
  mapGet a.tokens token_id

/-- `Account::unregister`: removes the token entry (a missing entry is treated
as balance 0) and aborts with E24 when the removed balance is nonzero; the
abort rolls the removal back. -/
def unregister (a : Account) (token_id : String) : Except Err Account :=
  if (mapGet a.tokens token_id).getD 0 = 0 then
    .ok { a with tokens := mapRemove a.tokens token_id }
  else .error .nonZeroTokenBalance

/-- `Account::storage_usage`: rent needed for the current footprint, at byte
price `bc`. -/
def storage_usage (bc : Nat) (a : Account) : Nat :=
  (INIT_ACCOUNT_STORAGE +
      a.tokens.length * (KEY_PREFIX_ACC + ACC_ID_AS_KEY_STORAGE + U128_STORAGE)) * bc

/-- `Account::withdraw`: debits the token balance; aborts with E22 when the
balance is insufficient and with E21 when the token has no entry. -/
def withdraw (a : Account) (token : String) (amount : Nat) : Except Err Account :=
  match mapGet a.tokens token with
  | some x =>
    if amount ≤ x then .ok { a with tokens := mapInsert a.tokens token (x - amount) }
    else .error .notEnoughTokens
  | none => .error .tokenNotRegistered

end Account

/-- `lib.rs::Contract` state (the fields the ledger and settlement logic
touch; `pools` is the append-only pool collection). -/
structure Contract where
  owner_id : String
  accounts : List (String × Account)
  whitelisted_tokens : List String
  exchange_fee : Nat
  referral_fee : Nat
  pools : List SimplePool
  deriving DecidableEq

namespace Contract

/-- `Contract::internal_get_account`. -/
def internal_get_account (c : Contract) (account_id : String) : Option Account :=
  mapGet c.accounts account_id

/-- `Contract::internal_unwrap_or_default_account`. -/
def internal_unwrap_or_default_account (c : Contract) (account_id : String) : Account :=
  (internal_get_account c account_id).getD Account.new

/-- `Contract::internal_unwrap_account`: aborts when the account is absent. -/
def internal_unwrap_account (c : Contract) (account_id : String) : Except Err Account :=
  match internal_get_account c account_id with
  | some a => .ok a
  | none => .error .accountNotRegistered

/-- `Contract::internal_save_account`: asserts the rent covers the storage
footprint (E11) and persists the account. -/
def internal_save_account (bc : Nat) (c : Contract) (account_id : String)
    (account : Account) : Except Err Contract :=
  if Account.storage_usage bc account ≤ account.near_amount then
    .ok { c with accounts := mapInsert c.accounts account_id account }
  else .error .insufficientStorage

/-- Synchronous phase of `Contract::withdraw`: resolves the amount (a zero
request means the full balance), checks it is positive (E29), debits the
ledger, optionally unregisters the token, persists the account and returns the
new state together with the amount handed to `internal_send_tokens`. -/
def withdraw (bc : Nat) (c : Contract) (sender_id token_id : String)
    (amount : Nat) (unregister : Option Bool) : Except Err (Contract × Nat) :=
  match internal_unwrap_account c sender_id with
  | .error e => .error e
  | .ok account =>
    match
      (if amount = 0 then
        match account.get_balance token_id with
        | some b => Except.ok b
        | none => Except.error Err.tokenNotRegistered
      else Except.ok amount) with
    | .error e => .error e
    | .ok amount =>
      if amount = 0 then .error .illegalWithdrawAmount
      else
        match account.withdraw token_id amount with
        | .error e => .error e
        | .ok account =>
          match
            (if unregister = some true then account.unregister token_id
             else Except.ok account) with
          | .error e => .error e
          | .ok account =>
            match internal_save_account bc c sender_id account with
            | .error e => .error e
            | .ok c' => .ok (c', amount)

/-- `Contract::internal_save_information_to_contract` (the deposit path of
`ft_on_transfer`): asserts a positive amount, credits the sender's entry for
the calling token and persists through the storage check. -/
def internal_save_information_to_contract (bc : Nat) (c : Contract)
    (account_id token_id : String) (amount : Nat) : Except Err Contract :=
  let account := internal_unwrap_or_default_account c account_id
  let account_amount := (mapGet account.tokens token_id).getD 0
  if amount = 0 then .error .amountMustBePositive
  else
    let account :=
      if amount = 0 then
        { account with tokens := mapInsert account.tokens token_id amount }
      else
        { account with tokens := mapInsert account.tokens token_id (amount + account_amount) }
    internal_save_account bc c account_id account

/-- `ft_on_transfer`: inbound deposit notification from token `token_id`
(the predecessor); the attached message must be empty. -/
def ft_on_transfer (bc : Nat) (c : Contract) (token_id sender_id : String)
    (amount : Nat) (msg : String) : Except Err Contract :=
  if msg ≠ "" then .error .msgMustBeEmpty
  else internal_save_information_to_contract bc c sender_id token_id amount

end Contract

/-! ### Concrete example states -/

/-- An empty two-token pool as produced by `SimplePool::new` with fee 30. -/
def pool0 : SimplePool :=
  { token_account_ids := ["token-a", "token-b"]
    amounts := [0, 0]
    volumes := [(0, 0), (0, 0)]
    total_fee := 30
    exchange_fee := 0
    referral_fee := 0
    shares := []
    shares_total_supply := 0 }

/-- The pool of the spec's worked example: reserves `[10^6, 10^6]`, total
share supply `10^24`, fee 30 bps. -/
def examplePool : SimplePool :=
  { token_account_ids := ["token-a", "token-b"]
    amounts := [1000000, 1000000]
    volumes := [(0, 0), (0, 0)]
    total_fee := 30
    exchange_fee := 0
    referral_fee := 0
    shares := [("exchange", 1000000000000000000000000)]
    shares_total_supply := 1000000000000000000000000 }

/-- A contract state with no registered accounts, no whitelisted tokens and no
pools. -/
def contract0 : Contract :=
  { owner_id := "owner"
    accounts := []
    whitelisted_tokens := []
    exchange_fee := 0
    referral_fee := 0
    pools := [] }

/-- A pool whose only share holder is `alice` with a single share. -/
def poolC7 : SimplePool :=
  { pool0 with shares := [("alice", 1)], shares_total_supply := 1 }

/-- A pool with share holders `alice` (5 shares) and `bob` (2 shares). -/
def poolC7w : SimplePool :=
  { pool0 with shares := [("alice", 5), ("bob", 2)], shares_total_supply := 7 }

/-- A pool that drives the swap-quote's 256-bit intermediate product out of
range: reserve_in 1, reserve_out `2^128 - 1`, fee 0. -/
def poolC2x : SimplePool :=
  { pool0 with amounts := [1, 2 ^ 128 - 1], total_fee := 0 }

/-- Closed form of the first `add_liquidity` loop:
`min over i of requested[i] * shares_total / reserves[i]` for two tokens. -/
def fair_supply (a0 a1 r0 r1 T : Nat) : Nat :=
  min (a0 * T / r0) (a1 * T / r1)

/-- Closed form of one step of the second `add_liquidity` loop:
`reserves[i] * fair_supply / shares_total`. -/
def actual_amount (r f T : Nat) : Nat :=
  r * f / T

/-- A pool on which `add_liquidity`'s fair supply reaches `2^128`: reserves
`[1, 1]`, total share supply `2^127`. -/
def poolC1x : SimplePool :=
  { pool0 with amounts := [1, 1], shares_total_supply := 2 ^ 127 }

/-- The state of `examplePool` after the spec's worked liquidity deposit. -/
def examplePoolAfter : SimplePool :=
  { examplePool with
    amounts := [1400000, 1400000]
    shares := [("exchange", 1000000000000000000000000),
      ("lp", 400000000000000000000000)]
    shares_total_supply := 1400000000000000000000000 }

/-- The ledger state of an account after the synchronous phase of a
withdrawal of `resolved` out of a balance `b` of `token`, with or without the
optional deregistration. -/
def debited_account (acc : Account) (token : String) (b resolved : Nat)
    (unreg : Option Bool) : Account :=
  if unreg = some true then
    { acc with tokens := mapRemove (mapInsert acc.tokens token (b - resolved)) token }
  else { acc with tokens := mapInsert acc.tokens token (b - resolved) }

/-- An account holding 7 units of `token-a` with ample rent. -/
def accC3 : Account :=
  { near_amount := 1000000000000000000000000, tokens := [("token-a", 7)] }

/-- A contract whose only account is `alice` (= `accC3`), with `token-a`
whitelisted. -/
def contractC3 : Contract :=
  { owner_id := "owner"
    accounts := [("alice", accC3)]
    whitelisted_tokens := ["token-a"]
    exchange_fee := 0
    referral_fee := 0
    pools := [] }

/-! ### Association-list lemmas -/

theorem mapGet_mapInsert_self {α : Type} (m : List (String × α)) (k : String) (v : α) :
    mapGet (mapInsert m k v) k = some v := by
  induction m with
  | nil => simp [mapGet, mapInsert]
  | cons p rest ih =>
    obtain ⟨k', v'⟩ := p
    by_cases h : k' = k
    · simp [mapGet, mapInsert, h]
    · simp [mapGet, mapInsert, h, ih]

theorem mapGet_mapInsert_ne {α : Type} (m : List (String × α)) (k k'' : String) (v : α)
    (hne : k'' ≠ k) : mapGet (mapInsert m k v) k'' = mapGet m k'' := by
  induction m with
  | nil =>
    simp only [mapInsert, mapGet]
    rw [if_neg (Ne.symm hne)]
  | cons p rest ih =>
    obtain ⟨k', v'⟩ := p
    by_cases h : k' = k
    · subst h
      simp only [mapInsert, if_pos rfl, mapGet]
      rw [if_neg (Ne.symm hne), if_neg (Ne.symm hne)]
    · simp only [mapInsert, if_neg h, mapGet, ih]

theorem mapRemove_of_none {α : Type} (m : List (String × α)) (k : String)
    (h : mapGet m k = none) : mapRemove m k = m := by
  induction m with
  | nil => simp [mapRemove]
  | cons p rest ih =>
    obtain ⟨k', v'⟩ := p
    by_cases hk : k' = k
    · simp [mapGet, hk] at h
    · simp [mapGet, hk] at h
      simp [mapRemove, hk, ih h]

theorem length_mapInsert_of_some {α : Type} (m : List (String × α)) (k : String)
    (v b : α) (h : mapGet m k = some b) :
    (mapInsert m k v).length = m.length := by
  induction m with
  | nil => simp [mapGet] at h
  | cons p rest ih =>
    obtain ⟨k', v'⟩ := p
    by_cases hk : k' = k
    · simp [mapInsert, hk]
    · simp [mapGet, hk] at h
      simp [mapInsert, hk, ih h]

theorem length_mapRemove_le {α : Type} (m : List (String × α)) (k : String) :
    (mapRemove m k).length ≤ m.length := by
  induction m with
  | nil => simp [mapRemove]
  | cons p rest ih =>
    obtain ⟨k', v'⟩ := p
    by_cases hk : k' = k
    · simp [mapRemove, hk]
    · simp [mapRemove, hk]
      omega

theorem sumVals_mapInsert_none (m : List (String × Nat)) (k : String) (v : Nat)
    (h : mapGet m k = none) : sumVals (mapInsert m k v) = sumVals m + v := by
  induction m with
  | nil => simp [sumVals, mapInsert]
  | cons p rest ih =>
    obtain ⟨k', v'⟩ := p
    by_cases hk : k' = k
    · simp [mapGet, hk] at h
    · simp only [mapGet, if_neg hk] at h
      have hih := ih h
      simp only [mapInsert, if_neg hk, sumVals, List.map_cons, List.sum_cons] at hih ⊢
      omega

theorem sumVals_mapInsert_some (m : List (String × Nat)) (k : String) (v b : Nat)
    (h : mapGet m k = some b) : sumVals (mapInsert m k v) + b = sumVals m + v := by
  induction m with
  | nil => simp [mapGet] at h
  | cons p rest ih =>
    obtain ⟨k', v'⟩ := p
    by_cases hk : k' = k
    · simp [mapGet, hk] at h
      simp [sumVals, mapInsert, hk]
      omega
    · simp [mapGet, hk] at h
      simp [sumVals, mapInsert, hk] at ih ⊢
      have := ih h
      omega

theorem le_sumVals_of_mapGet (m : List (String × Nat)) (k : String) (b : Nat)
    (h : mapGet m k = some b) : b ≤ sumVals m := by
  induction m with
  | nil => simp [mapGet] at h
  | cons p rest ih =>
    obtain ⟨k', v'⟩ := p
    by_cases hk : k' = k
    · simp [mapGet, hk] at h
      simp [sumVals]
      omega
    · simp [mapGet, hk] at h
      have := ih h
      simp [sumVals] at this ⊢
      omega

/-! ### Swap-quote lemmas -/

theorem internal_get_return_formula (p : SimplePool) (i j a : Nat)
    (hi : i < p.amounts.length) (hj : j < p.amounts.length)
    (hc : 0 < p.amounts.getD i 0 ∧ 0 < p.amounts.getD j 0 ∧ i ≠ j ∧ 0 < a)
    (hfit : a * (FEE_DIVISOR - p.total_fee) * p.amounts.getD j 0 < U256_BOUND)
    (hout : p.amounts.getD j 0 < U128_BOUND) :
    p.internal_get_return i a j =
      .ok (a * (FEE_DIVISOR - p.total_fee) * p.amounts.getD j 0 /
        (FEE_DIVISOR * p.amounts.getD i 0 + a * (FEE_DIVISOR - p.total_fee))) := by
  have h1 : a * (FEE_DIVISOR - p.total_fee) * p.amounts.getD j 0 ≤
      (FEE_DIVISOR * p.amounts.getD i 0 + a * (FEE_DIVISOR - p.total_fee)) *
        p.amounts.getD j 0 :=
    Nat.mul_le_mul_right _ (Nat.le_add_left _ _)
  have hdiv : a * (FEE_DIVISOR - p.total_fee) * p.amounts.getD j 0 /
      (FEE_DIVISOR * p.amounts.getD i 0 + a * (FEE_DIVISOR - p.total_fee)) <
        U128_BOUND :=
    lt_of_le_of_lt (Nat.div_le_of_le_mul h1) hout
  unfold SimplePool.internal_get_return
  rw [if_pos ⟨hi, hj⟩, if_pos hc]
  unfold mul256
  rw [if_pos hfit]
  exact if_pos hdiv

theorem internal_get_return_ok_inv (p : SimplePool) (i a j out : Nat)
    (h : p.internal_get_return i a j = .ok out) :
    0 < p.amounts.getD i 0 ∧ 0 < p.amounts.getD j 0 ∧ i ≠ j ∧ 0 < a ∧
      out = a * (FEE_DIVISOR - p.total_fee) * p.amounts.getD j 0 /
        (FEE_DIVISOR * p.amounts.getD i 0 + a * (FEE_DIVISOR - p.total_fee)) := by
  unfold SimplePool.internal_get_return at h
  split at h
  · split at h
    · rename_i hc
      split at h
      · exact Except.noConfusion h
      · rename_i prod heq
        unfold mul256 at heq
        split at heq
        · unfold as_u128 at h
          split at h
          · obtain ⟨h1, h2, h3, h4⟩ := hc
            refine ⟨h1, h2, h3, h4, ?_⟩
            cases heq
            cases h
            rfl
          · exact Except.noConfusion h
        · exact Except.noConfusion heq
    · exact Except.noConfusion h
  · exact Except.noConfusion h

/-- Core arithmetic fact behind the constant-product invariant: with reserves
`x, y > 0`, input `a > 0`, fee factor `g = F − fee ≤ F`, the quoted output
`out = floor(a*g*y / (F*x + a*g))` satisfies `out ≤ y`, the new product
`(x+a)*(y−out)` is at least `x*y`, and strictly exceeds it when `g < F`. -/
theorem constant_product_key (x y a g F out : Nat) (hx : 0 < x) (hy : 0 < y)
    (ha : 0 < a) (hF : 0 < F) (hgF : g ≤ F)
    (hout : out = a * g * y / (F * x + a * g)) :
    out ≤ y ∧ x * y ≤ (x + a) * (y - out) ∧
      (g < F → x * y < (x + a) * (y - out)) := by
  have hD : 0 < F * x + a * g := Nat.add_pos_left (Nat.mul_pos hF hx) _
  have hds : out * (F * x + a * g) ≤ a * g * y := by
    rw [hout]
    exact Nat.div_mul_le_self (a * g * y) (F * x + a * g)
  have hout_le : out ≤ y := by
    rw [hout]
    refine Nat.div_le_of_le_mul ?_
    exact Nat.mul_le_mul_right _ (Nat.le_add_left _ _)
  have key : (x + a) * out ≤ a * y := by
    have hstep1 : (x + a) * out * (F * x + a * g) ≤ (x + a) * (a * g * y) := by
      rw [Nat.mul_assoc]
      exact Nat.mul_le_mul_left _ hds
    have hgy : a * y * (g * x) ≤ a * y * (F * x) :=
      Nat.mul_le_mul_left _ (Nat.mul_le_mul_right _ hgF)
    have hstep2 : (x + a) * (a * g * y) ≤ a * y * (F * x + a * g) := by
      nlinarith [hgy]
    exact Nat.le_of_mul_le_mul_right (le_trans hstep1 hstep2) hD
  refine ⟨hout_le, ?_, ?_⟩
  · obtain ⟨d, hd⟩ : ∃ d, y = out + d := ⟨y - out, by omega⟩
    subst hd
    have hyd : out + d - out = d := by omega
    rw [hyd]
    nlinarith [key]
  · intro hgltF
    have keystrict : (x + a) * out < a * y := by
      have hwlt : (x + a) * (a * g) < a * (F * x + a * g) := by
        have hgx : a * (g * x) < a * (F * x) :=
          mul_lt_mul_of_pos_left (mul_lt_mul_of_pos_right hgltF hx) ha
        nlinarith [hgx]
      have hstep2 : (x + a) * (a * g * y) < a * y * (F * x + a * g) := by
        calc (x + a) * (a * g * y) = ((x + a) * (a * g)) * y := by ring
          _ < (a * (F * x + a * g)) * y := mul_lt_mul_of_pos_right hwlt hy
          _ = a * y * (F * x + a * g) := by ring
      have hstep1 : (x + a) * out * (F * x + a * g) ≤ (x + a) * (a * g * y) := by
        rw [Nat.mul_assoc]
        exact Nat.mul_le_mul_left _ hds
      exact Nat.lt_of_mul_lt_mul_right (lt_of_le_of_lt hstep1 hstep2)
    obtain ⟨d, hd⟩ : ∃ d, y = out + d := ⟨y - out, by omega⟩
    subst hd
    have hyd : out + d - out = d := by omega
    rw [hyd]
    nlinarith [keystrict]

/-! ### add_liquidity loop lemmas -/

theorem fair_supply_loop_two (a0 a1 r0 r1 T : Nat) (ha0 : 0 < a0) (ha1 : 0 < a1)
    (hr0 : 0 < r0) (hr1 : 0 < r1) (hM : a0 * T / r0 ≤ U256_BOUND - 1) :
    SimplePool.fair_supply_loop [a0, a1] [r0, r1] T (U256_BOUND - 1) =
      .ok (fair_supply a0 a1 r0 r1 T) := by
  simp only [SimplePool.fair_supply_loop,
    if_neg (show ¬ a0 = 0 by omega), if_neg (show ¬ r0 = 0 by omega),
    if_neg (show ¬ a1 = 0 by omega), if_neg (show ¬ r1 = 0 by omega)]
  rw [min_eq_right hM]
  rfl

theorem actual_loop_two_ok (r0 r1 f T : Nat)
    (h0lt : r0 * f / T < U128_BOUND) (h1lt : r1 * f / T < U128_BOUND)
    (h0 : ¬ r0 * f / T = 0) (h1 : ¬ r1 * f / T = 0) :
    SimplePool.actual_loop [r0, r1] f T =
      .ok ([r0 + r0 * f / T, r1 + r1 * f / T], [r0 * f / T, r1 * f / T]) := by
  simp only [SimplePool.actual_loop, as_u128, if_pos h0lt, if_pos h1lt, if_neg h0, if_neg h1]

theorem actual_loop_two_zero (r0 r1 f T : Nat)
    (h0lt : r0 * f / T < U128_BOUND) (h1lt : r1 * f / T < U128_BOUND)
    (hz : r0 * f / T = 0 ∨ r1 * f / T = 0) :
    SimplePool.actual_loop [r0, r1] f T = .error .zeroAmount := by
  by_cases h0 : r0 * f / T = 0
  · simp only [SimplePool.actual_loop, as_u128, if_pos h0lt, if_pos h0]
  · have h1 : r1 * f / T = 0 := by tauto
    simp only [SimplePool.actual_loop, as_u128, if_pos h0lt, if_neg h0, if_pos h1lt, if_pos h1]

/-- The actual consumed amount never exceeds the requested amount: with
`f ≤ a * T / r` (true of the fair supply by construction) one has
`r * f / T ≤ a`. -/
theorem act_le_requested (a r T f : Nat) (hT : 0 < T) (hf : f ≤ a * T / r) :
    r * f / T ≤ a := by
  have h1 : r * f ≤ a * T := by
    calc r * f ≤ r * (a * T / r) := Nat.mul_le_mul_left _ hf
      _ = (a * T / r) * r := Nat.mul_comm _ _
      _ ≤ a * T := Nat.div_mul_le_self _ _
  calc r * f / T ≤ a * T / T := Nat.div_le_div_right h1
    _ = T * a / T := by rw [Nat.mul_comm a T]
    _ = a := Nat.mul_div_cancel_left a hT

/-! ### Ledger lemmas -/

theorem account_withdraw_none (acc : Account) (token : String) (amt : Nat)
    (h : mapGet acc.tokens token = none) :
    acc.withdraw token amt = .error .tokenNotRegistered := by
  unfold Account.withdraw
  simp only [h]

theorem account_withdraw_insufficient (acc : Account) (token : String) (b amt : Nat)
    (hb : mapGet acc.tokens token = some b) (hlt : b < amt) :
    acc.withdraw token amt = .error .notEnoughTokens := by
  unfold Account.withdraw
  simp only [hb]
  rw [if_neg (by omega)]

theorem account_withdraw_ok (acc : Account) (token : String) (b amt : Nat)
    (hb : mapGet acc.tokens token = some b) (hle : amt ≤ b) :
    acc.withdraw token amt =
      .ok { acc with tokens := mapInsert acc.tokens token (b - amt) } := by
  unfold Account.withdraw
  simp only [hb]
  rw [if_pos hle]

theorem account_unregister_zero (acc : Account) (token : String)
    (h0 : (mapGet acc.tokens token).getD 0 = 0) :
    acc.unregister token = .ok { acc with tokens := mapRemove acc.tokens token } := by
  unfold Account.unregister
  rw [if_pos h0]

theorem internal_save_account_ok (bc : Nat) (c : Contract) (id : String)
    (a : Account) (h : Account.storage_usage bc a ≤ a.near_amount) :
    Contract.internal_save_account bc c id a =
      .ok { c with accounts := mapInsert c.accounts id a } := by
  unfold Contract.internal_save_account
  rw [if_pos h]

theorem withdraw_eval (bc : Nat) (c : Contract) (sender token : String)
    (amt : Nat) (unreg : Option Bool) (acc : Account)
    (hacc : Contract.internal_get_account c sender = some acc) :
    Contract.withdraw bc c sender token amt unreg =
      match
        (if amt = 0 then
          match acc.get_balance token with
          | some b => Except.ok b
          | none => Except.error Err.tokenNotRegistered
        else Except.ok amt) with
      | .error e => .error e
      | .ok amount =>
        if amount = 0 then .error .illegalWithdrawAmount
        else
          match acc.withdraw token amount with
          | .error e => .error e
          | .ok account =>
            match
              (if unreg = some true then account.unregister token
               else Except.ok account) with
            | .error e => .error e
            | .ok account =>
              match Contract.internal_save_account bc c sender account with
              | .error e => .error e
              | .ok c' => .ok (c', amount) := by
  unfold Contract.withdraw Contract.internal_unwrap_account
  rw [hacc]

/-- The synchronous withdrawal phase only shrinks the account's footprint, so
an account whose rent covered its storage still passes the storage check after
the debit (and optional deregistration). -/
theorem debited_account_storage (bc : Nat) (acc : Account) (token : String)
    (b resolved : Nat) (unreg : Option Bool)
    (hb : mapGet acc.tokens token = some b)
    (hst : Account.storage_usage bc acc ≤ acc.near_amount) :
    Account.storage_usage bc (debited_account acc token b resolved unreg) ≤
      (debited_account acc token b resolved unreg).near_amount := by
  have hnear : (debited_account acc token b resolved unreg).near_amount =
      acc.near_amount := by
    unfold debited_account
    split <;> rfl
  have hlen : (debited_account acc token b resolved unreg).tokens.length ≤
      acc.tokens.length := by
    unfold debited_account
    split
    · calc (mapRemove (mapInsert acc.tokens token (b - resolved)) token).length
          ≤ (mapInsert acc.tokens token (b - resolved)).length :=
            length_mapRemove_le _ _
        _ = acc.tokens.length := length_mapInsert_of_some _ _ _ _ hb
    · exact le_of_eq (length_mapInsert_of_some _ _ _ _ hb)
  rw [hnear]
  refine le_trans ?_ hst
  unfold Account.storage_usage
  exact Nat.mul_le_mul_right _ (Nat.add_le_add_left (Nat.mul_le_mul_right _ hlen) _)

/-! ### Share-supply invariant lemmas -/

theorem mint_shares_sum (p : SimplePool) (s : String) (sh : Nat)
    (hinv : sumVals p.shares = p.shares_total_supply) :
    sumVals (p.mint_shares s sh).shares = (p.mint_shares s sh).shares_total_supply := by
  unfold SimplePool.mint_shares
  by_cases h : sh = 0
  · rw [if_pos h]
    exact hinv
  · rw [if_neg h]
    dsimp only
    unfold add_to_collection
    cases hg : mapGet p.shares s with
    | none =>
      rw [sumVals_mapInsert_none p.shares s ((none : Option Nat).getD 0 + sh) hg]
      simp only [Option.getD_none]
      omega
    | some bprev =>
      have h2 := sumVals_mapInsert_some p.shares s ((some bprev).getD 0 + sh) bprev hg
      simp only [Option.getD_some] at h2 ⊢
      omega

theorem inv_new (tokens : List String) (fee ef rf : Nat) (p : SimplePool)
    (h : SimplePool.new tokens fee ef rf = .ok p) :
    sumVals p.shares = p.shares_total_supply := by
  unfold SimplePool.new at h
  split at h
  · exact Except.noConfusion h
  · split at h
    · exact Except.noConfusion h
    · cases h
      rfl

theorem inv_share_register (p : SimplePool) (acc : String) (p' : SimplePool)
    (h : p.share_register acc = .ok p')
    (hinv : sumVals p.shares = p.shares_total_supply) :
    sumVals p'.shares = p'.shares_total_supply := by
  unfold SimplePool.share_register at h
  split at h
  · exact Except.noConfusion h
  · rename_i hcond
    cases h
    dsimp only
    have hg : mapGet p.shares acc = none := by
      cases hq : mapGet p.shares acc with
      | none => rfl
      | some v =>
        rw [hq] at hcond
        simp at hcond
    rw [sumVals_mapInsert_none p.shares acc 0 hg]
    omega

theorem inv_share_transfer (p : SimplePool) (f t : String) (a : Nat)
    (p' : SimplePool) (h : p.share_transfer f t a = .ok p')
    (hinv : sumVals p.shares = p.shares_total_supply) :
    sumVals p'.shares = p'.shares_total_supply := by
  unfold SimplePool.share_transfer at h
  split at h
  · exact Except.noConfusion h
  · rename_i bal hb
    split at h
    · exact Except.noConfusion h
    · rename_i hnlt
      split at h
      · exact Except.noConfusion h
      · rename_i bo hbo
        cases h
        dsimp only
        have h1 := sumVals_mapInsert_some p.shares f (bal - a) bal hb
        have h2 := sumVals_mapInsert_some (mapInsert p.shares f (bal - a)) t
          (bo + a) bo hbo
        have h3 := le_sumVals_of_mapGet p.shares f bal hb
        have h4 := le_sumVals_of_mapGet (mapInsert p.shares f (bal - a)) t bo hbo
        omega

theorem inv_add_liquidity (p : SimplePool) (s : String) (a : List Nat)
    (r : SimplePool × List Nat × Nat) (h : p.add_liquidity s a = .ok r)
    (hinv : sumVals p.shares = p.shares_total_supply) :
    sumVals r.1.shares = r.1.shares_total_supply := by
  unfold SimplePool.add_liquidity at h
  split at h
  · exact Except.noConfusion h
  · split at h
    · split at h
      · exact Except.noConfusion h
      · split at h
        · exact Except.noConfusion h
        · split at h
          · exact Except.noConfusion h
          · split at h
            · exact Except.noConfusion h
            · cases h
              exact mint_shares_sum _ s _ hinv
    · split at h
      · exact Except.noConfusion h
      · cases h
        exact mint_shares_sum _ s _ hinv

theorem inv_remove_liquidity (p : SimplePool) (s : String) (sh : Nat)
    (ma : List Nat) (r : SimplePool × List Nat)
    (h : p.remove_liquidity s sh ma = .ok r)
    (hinv : sumVals p.shares = p.shares_total_supply) :
    sumVals r.1.shares = r.1.shares_total_supply := by
  unfold SimplePool.remove_liquidity at h
  split at h
  · exact Except.noConfusion h
  · split at h
    · exact Except.noConfusion h
    · rename_i prev hb
      split at h
      · exact Except.noConfusion h
      · rename_i hnlt
        split at h
        · exact Except.noConfusion h
        · cases h
          dsimp only
          have hv : (if prev = sh then 0 else prev - sh) = prev - sh := by
            split <;> omega
          rw [hv]
          have h1 := sumVals_mapInsert_some p.shares s (prev - sh) prev hb
          have h3 := le_sumVals_of_mapGet p.shares s prev hb
          omega

/-! ### Claim theorems -/

/-- Claim C10: for every account and every token for which the account has no
entry, `Account::unregister` succeeds as a no-op — it neither fails (the
removed balance defaults to 0, so the E24 assertion passes) nor changes the
token map or the rent balance. -/
theorem C10_unregister_absent_noop (a : Account) (token : String)
    (h : mapGet a.tokens token = none) : a.unregister token = .ok a := by
  unfold Account.unregister
  rw [h]
  simp [mapRemove_of_none a.tokens token h]

/-- Witness for C10 at a concrete account and unregistered token. -/
theorem C10_witness :
    Account.unregister { near_amount := 5, tokens := [("token-a", 3)] } "token-b" =
      .ok { near_amount := 5, tokens := [("token-a", 3)] } :=
  C10_unregister_absent_noop _ "token-b" (by decide)

/-- Claim C4: when `shares_total_supply = 0`, `add_liquidity` adds the two
requested amounts verbatim to the reserves and mints exactly
`INIT_SHARES_SUPPLY = 10^24` shares to the provider, independent of the
requested amounts (no zero-amount check runs on this first deposit — the
theorem holds for `a0 = a1 = 0` as well). -/
theorem C4_first_deposit (p : SimplePool) (sender : String) (r0 r1 a0 a1 : Nat)
    (h0 : p.shares_total_supply = 0) (hlen : p.token_account_ids.length = 2)
    (hamts : p.amounts = [r0, r1]) :
    p.add_liquidity sender [a0, a1] =
      .ok ({ p with
              amounts := [r0 + a0, r1 + a1]
              shares := add_to_collection p.shares sender INIT_SHARES_SUPPLY
              shares_total_supply := INIT_SHARES_SUPPLY }, [a0, a1], INIT_SHARES_SUPPLY)
      ∧ INIT_SHARES_SUPPLY = 10 ^ 24 := by
  constructor
  · simp [SimplePool.add_liquidity, hlen, h0, hamts, SimplePool.mint_shares,
      INIT_SHARES_SUPPLY]
  · rfl

/-- Witness for C4 at a fresh pool and a lopsided first deposit. -/
theorem C4_witness :
    pool0.add_liquidity "lp" [7, 9] =
      .ok ({ pool0 with
              amounts := [0 + 7, 0 + 9]
              shares := add_to_collection pool0.shares "lp" INIT_SHARES_SUPPLY
              shares_total_supply := INIT_SHARES_SUPPLY }, [7, 9], INIT_SHARES_SUPPLY)
      ∧ INIT_SHARES_SUPPLY = 10 ^ 24 :=
  C4_first_deposit pool0 "lp" 0 0 7 9 rfl rfl rfl

/-- Counterexample to claim C9 as stated: an inbound deposit notification of
amount 0 from a sender with no account aborts with the positive-amount
assertion, not with `InsufficientStorage`. -/
theorem C9_counterexample :
    Contract.ft_on_transfer 1 contract0 "token-a" "alice" 0 "" =
        .error .amountMustBePositive ∧
      Err.amountMustBePositive ≠ Err.insufficientStorage :=
  ⟨rfl, by decide⟩

/-- Claim C9 (amended): assuming a positive storage byte price, an inbound
deposit notification with empty msg and positive amount whose sender has no
existing account always aborts with `InsufficientStorage` — the
freshly-created account has rent balance 0, below the storage cost of an
account holding one token entry — so such a deposit never creates an account
(a zero amount instead aborts with the positive-amount assertion, so no
account is created in that case either). -/
theorem C9_inbound_deposit_cannot_create_account (bc : Nat) (c : Contract)
    (token_id sender_id : String) (amount : Nat) (hbc : 0 < bc)
    (hacc : c.internal_get_account sender_id = none) (hamt : 0 < amount) :
    Contract.ft_on_transfer bc c token_id sender_id amount "" =
      .error .insufficientStorage := by
  unfold Contract.ft_on_transfer Contract.internal_save_information_to_contract
    Contract.internal_unwrap_or_default_account
  rw [hacc]
  simp [Account.new, mapGet, Contract.internal_save_account,
    Account.storage_usage, mapInsert, hbc, Nat.ne_of_gt hamt, INIT_ACCOUNT_STORAGE,
    ACC_ID_AS_CLT_KEY_STORAGE, ACC_ID_AS_KEY_STORAGE, ACC_ID_STORAGE,
    KEY_PREFIX_ACC, U128_STORAGE, U64_STORAGE, U32_STORAGE]
  omega

/-- Witness for the amended C9 at a concrete empty contract. -/
theorem C9_witness :
    Contract.ft_on_transfer 1 contract0 "token-a" "alice" 5 "" =
      .error .insufficientStorage :=
  C9_inbound_deposit_cannot_create_account 1 contract0 "token-a" "alice" 5
    (by decide) rfl (by decide)

/-- Counterexample to claim C7 as stated: a transfer exceeding the sender's
balance aborts with ERR_NOT_ENOUGH_SHARES, not with the NoShares error
(ERR_NO_SHARES) the claim assigns to an insufficient balance. -/
theorem C7_counterexample :
    poolC7.share_transfer "alice" "bob" 2 = .error .notEnoughShares ∧
      Err.notEnoughShares ≠ Err.noShares :=
  ⟨rfl, by decide⟩

/-- Claim C7 (amended): `share_transfer(from, to, amount)` fails with NoShares
if `from` is unregistered, with NotEnoughShares if `from`'s balance is
insufficient, and with NotRegistered (LP not registered) if `to` has no share
entry (never auto-created); on success `from`'s balance decreases and `to`'s
balance increases by exactly `amount`, with the total supply, token list and
reserves unchanged. -/
theorem C7_share_transfer (p : SimplePool) (sender receiver : String) (amount : Nat) :
    (mapGet p.shares sender = none →
      p.share_transfer sender receiver amount = .error .noShares)
    ∧ (∀ b, mapGet p.shares sender = some b → b < amount →
        p.share_transfer sender receiver amount = .error .notEnoughShares)
    ∧ (∀ b, mapGet p.shares sender = some b → amount ≤ b →
        mapGet p.shares receiver = none →
        p.share_transfer sender receiver amount = .error .lpNotRegistered)
    ∧ (∀ b bo, mapGet p.shares sender = some b → amount ≤ b →
        mapGet p.shares receiver = some bo → sender ≠ receiver →
        ∃ p', p.share_transfer sender receiver amount = .ok p'
          ∧ mapGet p'.shares sender = some (b - amount)
          ∧ mapGet p'.shares receiver = some (bo + amount)
          ∧ p'.shares_total_supply = p.shares_total_supply
          ∧ p'.token_account_ids = p.token_account_ids
          ∧ p'.amounts = p.amounts) := by
  refine ⟨?_, ?_, ?_, ?_⟩
  · intro h
    unfold SimplePool.share_transfer
    rw [h]
  · intro b hb hlt
    unfold SimplePool.share_transfer
    rw [hb]
    simp [hlt]
  · intro b hb hle hrecv
    have hne : receiver ≠ sender := by
      intro e
      rw [e, hb] at hrecv
      exact Option.noConfusion hrecv
    simp [SimplePool.share_transfer, hb, Nat.not_lt.mpr hle,
      mapGet_mapInsert_ne p.shares sender receiver (b - amount) hne, hrecv]
  · intro b bo hb hle hbo hne
    have hne' : receiver ≠ sender := fun e => hne e.symm
    refine ⟨{ p with shares := mapInsert (mapInsert p.shares sender (b - amount)) receiver (bo + amount) }, ?_, ?_, ?_, rfl, rfl, rfl⟩
    · simp [SimplePool.share_transfer, hb, Nat.not_lt.mpr hle,
        mapGet_mapInsert_ne p.shares sender receiver (b - amount) hne', hbo]
    · rw [mapGet_mapInsert_ne _ receiver sender (bo + amount) hne]
      exact mapGet_mapInsert_self p.shares sender (b - amount)
    · exact mapGet_mapInsert_self _ receiver (bo + amount)

/-- Witness for the amended C7: a successful transfer of 3 of alice's 5 shares
to bob. -/
theorem C7_witness :
    ∃ p', poolC7w.share_transfer "alice" "bob" 3 = .ok p'
      ∧ mapGet p'.shares "alice" = some (5 - 3)
      ∧ mapGet p'.shares "bob" = some (2 + 3)
      ∧ p'.shares_total_supply = poolC7w.shares_total_supply
      ∧ p'.token_account_ids = poolC7w.token_account_ids
      ∧ p'.amounts = poolC7w.amounts :=
  (C7_share_transfer poolC7w "alice" "bob" 3).2.2.2 5 2 rfl (by decide) rfl (by decide)

/-- Counterexample to claim C2 as stated: at `reserve_in = 1`,
`reserve_out = 2^128 - 1`, `fee_bps = 0`, `amount_in = 2^128 - 1` — all valid
`u128` inputs with no Invalid condition — the 256-bit intermediate product
`amount_in * 10000 * reserve_out` overflows, so the quote aborts with an
overflow panic instead of returning the formula's value. -/
theorem C2_counterexample :
    poolC2x.internal_get_return 0 (2 ^ 128 - 1) 1 = .error .overflow ∧
      Err.overflow ≠ Err.invalid ∧
      ¬((0 : Nat) = 1 ∨ poolC2x.amounts.getD 0 0 = 0 ∨
        poolC2x.amounts.getD 1 0 = 0 ∨ (2 ^ 128 - 1 : Nat) = 0) := by
  refine ⟨rfl, by decide, by decide⟩

/-- Claim C2 (amended): the swap quote fails with Invalid exactly when the two
token indices coincide, either reserve is zero, or `amount_in = 0`; otherwise
— provided the 256-bit intermediate `amount_in * (10000 - fee_bps) *
reserve_out` fits below `2^256` — it returns
`floor(amount_in*(10000-fee_bps)*reserve_out /
(10000*reserve_in + amount_in*(10000-fee_bps)))`; in particular
`get_return(1000, 10^6, 10^6, fee 30)` equals
`floor(1000*9970*10^6 / (10^4*10^6 + 1000*9970))`. -/
theorem C2_get_return (p : SimplePool) (i j a : Nat)
    (hi : i < p.amounts.length) (hj : j < p.amounts.length)
    (hout : p.amounts.getD j 0 < U128_BOUND)
    (hfit : a * (FEE_DIVISOR - p.total_fee) * p.amounts.getD j 0 < U256_BOUND) :
    (p.internal_get_return i a j = .error .invalid ↔
      (i = j ∨ p.amounts.getD i 0 = 0 ∨ p.amounts.getD j 0 = 0 ∨ a = 0))
    ∧ (¬(i = j ∨ p.amounts.getD i 0 = 0 ∨ p.amounts.getD j 0 = 0 ∨ a = 0) →
        p.internal_get_return i a j =
          .ok (a * (FEE_DIVISOR - p.total_fee) * p.amounts.getD j 0 /
            (FEE_DIVISOR * p.amounts.getD i 0 + a * (FEE_DIVISOR - p.total_fee))))
    ∧ examplePool.get_return "token-a" 1000 "token-b" =
        .ok (1000 * 9970 * 1000000 / (10000 * 1000000 + 1000 * 9970)) := by
  have hform : ¬(i = j ∨ p.amounts.getD i 0 = 0 ∨ p.amounts.getD j 0 = 0 ∨ a = 0) →
      p.internal_get_return i a j =
        .ok (a * (FEE_DIVISOR - p.total_fee) * p.amounts.getD j 0 /
          (FEE_DIVISOR * p.amounts.getD i 0 + a * (FEE_DIVISOR - p.total_fee))) := by
    intro hnot
    have hc : 0 < p.amounts.getD i 0 ∧ 0 < p.amounts.getD j 0 ∧ i ≠ j ∧ 0 < a := by
      push_neg at hnot
      exact ⟨by omega, by omega, hnot.1, by omega⟩
    exact internal_get_return_formula p i j a hi hj hc hfit hout
  refine ⟨⟨?_, ?_⟩, hform, rfl⟩
  · intro h
    by_contra hnot
    rw [hform hnot] at h
    exact Except.noConfusion h
  · intro hdisj
    unfold SimplePool.internal_get_return
    rw [if_pos ⟨hi, hj⟩]
    rw [if_neg (by omega)]

/-- Witness for the amended C2 at the spec's worked example. -/
theorem C2_witness :
    examplePool.internal_get_return 0 1000 1 =
      .ok (1000 * (FEE_DIVISOR - examplePool.total_fee) * examplePool.amounts.getD 1 0 /
        (FEE_DIVISOR * examplePool.amounts.getD 0 0 +
          1000 * (FEE_DIVISOR - examplePool.total_fee))) :=
  (C2_get_return examplePool 0 1 1000 (by decide) (by decide) (by decide)
    (by decide)).2.1 (by decide)

/-- Claim C6: for reserves `x, y > 0`, fee below 10000 and any positive input
amount, a swap priced by `internal_get_return` (reserves becoming `x + a` and
`y - out`) never decreases the product of the reserves, and strictly increases
it whenever the fee is positive. -/
theorem C6_constant_product (p : SimplePool) (x y a out : Nat)
    (hamts : p.amounts = [x, y]) (hfee : p.total_fee < FEE_DIVISOR) (ha : 0 < a)
    (h : p.internal_get_return 0 a 1 = .ok out) :
    out ≤ y ∧ x * y ≤ (x + a) * (y - out) ∧
      (0 < p.total_fee → x * y < (x + a) * (y - out)) := by
  obtain ⟨hx, hy, _, _, hout⟩ := internal_get_return_ok_inv p 0 a 1 out h
  rw [hamts] at hx hy hout
  simp only [List.getD_cons_zero, List.getD_cons_succ] at hx hy hout
  have hmain := constant_product_key x y a (FEE_DIVISOR - p.total_fee) FEE_DIVISOR
    out hx hy ha (by decide) (Nat.sub_le _ _) hout
  exact ⟨hmain.1, hmain.2.1, fun hf => hmain.2.2 (by omega)⟩

/-- Witness for C6 at the spec's worked example (`out = 996`). -/
theorem C6_witness :
    996 ≤ 1000000 ∧ 1000000 * 1000000 ≤ (1000000 + 1000) * (1000000 - 996) ∧
      (0 < examplePool.total_fee →
        1000000 * 1000000 < (1000000 + 1000) * (1000000 - 996)) :=
  C6_constant_product examplePool 1000000 1000000 1000 996 rfl (by decide)
    (by decide) rfl

/-- Counterexample to claim C1 as stated: on a pool with positive reserves
`[1, 1]` and positive total supply `2^127`, requesting `[2, 2]` gives
`fair_supply = 2 * 2^127 / 1 = 2^128`, whose `u128` conversion panics — the
call aborts instead of minting `fair_supply` shares. -/
theorem C1_counterexample :
    poolC1x.add_liquidity "lp" [2, 2] = .error .overflow ∧
      0 < poolC1x.shares_total_supply ∧ poolC1x.amounts = [1, 1] ∧
      fair_supply 2 2 1 1 poolC1x.shares_total_supply = 2 ^ 128 :=
  ⟨rfl, by decide, rfl, by decide⟩

/-- Claim C1 (amended): on a two-token pool with `shares_total_supply > 0` and
positive reserves, `add_liquidity` computes
`fair_supply = min over i of floor(requested[i] * shares_total / reserves[i])`
with 256-bit intermediates, sets `actual[i] = floor(reserves[i] * fair_supply
/ shares_total)`, fails with ZeroAmount if any `requested[i] = 0` or any
`actual[i] = 0` (reaching the second token's zero check requires the first
reserve increment to stay inside `u128`, since the contract's checked `u128`
addition aborts otherwise), and otherwise — provided `fair_supply < 2^128`
(its `u128` conversion panics above that) and the updated reserves, total
share supply and provider balance each stay below `2^128` (the contract's
checked `u128` additions abort otherwise) — adds the actual amounts to the
reserves and mints exactly `fair_supply` shares to the provider; in
particular on reserves `[10^6, 10^6]`, total `10^24`, fee 30, requesting
`[500000, 400000]` consumes `[400000, 400000]` and mints `4 * 10^23` shares.
Within the stated `< 2^128` bounds the model's exact `Nat` sums agree with
the program's `u128` sums, so no conjunct asserts success where the program
aborts. -/
theorem C1_add_liquidity (p : SimplePool) (sender : String) (r0 r1 a0 a1 : Nat)
    (hlen : p.token_account_ids.length = 2) (hamts : p.amounts = [r0, r1])
    (hT : 0 < p.shares_total_supply) (hTlt : p.shares_total_supply < U128_BOUND)
    (hr0 : 0 < r0) (hr1 : 0 < r1)
    (ha0lt : a0 < U128_BOUND) (ha1lt : a1 < U128_BOUND) :
    (a0 = 0 ∨ a1 = 0 → p.add_liquidity sender [a0, a1] = .error .zeroAmount)
    ∧ (0 < a0 → 0 < a1 →
        actual_amount r0 (fair_supply a0 a1 r0 r1 p.shares_total_supply)
          p.shares_total_supply = 0 →
        p.add_liquidity sender [a0, a1] = .error .zeroAmount)
    ∧ (0 < a0 → 0 < a1 →
        0 < actual_amount r0 (fair_supply a0 a1 r0 r1 p.shares_total_supply)
          p.shares_total_supply →
        r0 + actual_amount r0 (fair_supply a0 a1 r0 r1 p.shares_total_supply)
          p.shares_total_supply < U128_BOUND →
        actual_amount r1 (fair_supply a0 a1 r0 r1 p.shares_total_supply)
          p.shares_total_supply = 0 →
        p.add_liquidity sender [a0, a1] = .error .zeroAmount)
    ∧ (0 < a0 → 0 < a1 →
        0 < actual_amount r0 (fair_supply a0 a1 r0 r1 p.shares_total_supply)
          p.shares_total_supply →
        0 < actual_amount r1 (fair_supply a0 a1 r0 r1 p.shares_total_supply)
          p.shares_total_supply →
        fair_supply a0 a1 r0 r1 p.shares_total_supply < U128_BOUND →
        r0 + actual_amount r0 (fair_supply a0 a1 r0 r1 p.shares_total_supply)
          p.shares_total_supply < U128_BOUND →
        r1 + actual_amount r1 (fair_supply a0 a1 r0 r1 p.shares_total_supply)
          p.shares_total_supply < U128_BOUND →
        p.shares_total_supply + fair_supply a0 a1 r0 r1 p.shares_total_supply <
          U128_BOUND →
        (mapGet p.shares sender).getD 0 +
          fair_supply a0 a1 r0 r1 p.shares_total_supply < U128_BOUND →
        p.add_liquidity sender [a0, a1] =
          .ok ({ p with
                  amounts := [r0 + actual_amount r0
                      (fair_supply a0 a1 r0 r1 p.shares_total_supply)
                      p.shares_total_supply,
                    r1 + actual_amount r1
                      (fair_supply a0 a1 r0 r1 p.shares_total_supply)
                      p.shares_total_supply]
                  shares := add_to_collection p.shares sender
                    (fair_supply a0 a1 r0 r1 p.shares_total_supply)
                  shares_total_supply := p.shares_total_supply +
                    fair_supply a0 a1 r0 r1 p.shares_total_supply },
            [actual_amount r0 (fair_supply a0 a1 r0 r1 p.shares_total_supply)
                p.shares_total_supply,
              actual_amount r1 (fair_supply a0 a1 r0 r1 p.shares_total_supply)
                p.shares_total_supply],
            fair_supply a0 a1 r0 r1 p.shares_total_supply))
    ∧ examplePool.add_liquidity "lp" [500000, 400000] =
        .ok (examplePoolAfter, [400000, 400000], 400000000000000000000000) := by
  have hguard : ¬ (([a0, a1] : List Nat).length ≠ p.token_account_ids.length) := by
    simp [hlen]
  have hM : a0 * p.shares_total_supply / r0 ≤ U256_BOUND - 1 := by
    have h1 : a0 * p.shares_total_supply ≤ (U128_BOUND - 1) * (U128_BOUND - 1) :=
      Nat.mul_le_mul (by omega) (by omega)
    have h2 : (U128_BOUND - 1) * (U128_BOUND - 1) ≤ U256_BOUND - 1 := by
      norm_num [U128_BOUND, U256_BOUND]
    exact le_trans (le_trans (Nat.div_le_self _ _) h1) h2
  refine ⟨?_, ?_, ?_, ?_, rfl⟩
  · intro hz
    unfold SimplePool.add_liquidity
    rw [if_neg hguard, if_pos hT, hamts]
    by_cases h0 : a0 = 0
    · simp only [SimplePool.fair_supply_loop, if_pos h0]
    · have h1 : a1 = 0 := by tauto
      simp only [SimplePool.fair_supply_loop, if_neg h0,
        if_neg (show ¬ r0 = 0 by omega), if_pos h1]
  · intro ha0 ha1 hz0
    have hb0 : r0 * fair_supply a0 a1 r0 r1 p.shares_total_supply /
        p.shares_total_supply ≤ a0 :=
      act_le_requested a0 r0 _ _ hT (min_le_left _ _)
    have hb1 : r1 * fair_supply a0 a1 r0 r1 p.shares_total_supply /
        p.shares_total_supply ≤ a1 :=
      act_le_requested a1 r1 _ _ hT (min_le_right _ _)
    have hz0' : r0 * fair_supply a0 a1 r0 r1 p.shares_total_supply /
        p.shares_total_supply = 0 := by
      simpa [actual_amount] using hz0
    unfold SimplePool.add_liquidity
    rw [if_neg hguard, if_pos hT, hamts,
      fair_supply_loop_two a0 a1 r0 r1 p.shares_total_supply ha0 ha1 hr0 hr1 hM]
    simp only [actual_loop_two_zero r0 r1
      (fair_supply a0 a1 r0 r1 p.shares_total_supply) p.shares_total_supply
      (lt_of_le_of_lt hb0 ha0lt) (lt_of_le_of_lt hb1 ha1lt) (Or.inl hz0')]
  · intro ha0 ha1 hact0 _hfit0 hz1
    have hb0 : r0 * fair_supply a0 a1 r0 r1 p.shares_total_supply /
        p.shares_total_supply ≤ a0 :=
      act_le_requested a0 r0 _ _ hT (min_le_left _ _)
    have hb1 : r1 * fair_supply a0 a1 r0 r1 p.shares_total_supply /
        p.shares_total_supply ≤ a1 :=
      act_le_requested a1 r1 _ _ hT (min_le_right _ _)
    have hz1' : r1 * fair_supply a0 a1 r0 r1 p.shares_total_supply /
        p.shares_total_supply = 0 := by
      simpa [actual_amount] using hz1
    unfold SimplePool.add_liquidity
    rw [if_neg hguard, if_pos hT, hamts,
      fair_supply_loop_two a0 a1 r0 r1 p.shares_total_supply ha0 ha1 hr0 hr1 hM]
    simp only [actual_loop_two_zero r0 r1
      (fair_supply a0 a1 r0 r1 p.shares_total_supply) p.shares_total_supply
      (lt_of_le_of_lt hb0 ha0lt) (lt_of_le_of_lt hb1 ha1lt) (Or.inr hz1')]
  · intro ha0 ha1 hact0 hact1 hflt _hfit0 _hfit1 _hfitT _hfitS
    have hb0 : r0 * fair_supply a0 a1 r0 r1 p.shares_total_supply /
        p.shares_total_supply ≤ a0 :=
      act_le_requested a0 r0 _ _ hT (min_le_left _ _)
    have hb1 : r1 * fair_supply a0 a1 r0 r1 p.shares_total_supply /
        p.shares_total_supply ≤ a1 :=
      act_le_requested a1 r1 _ _ hT (min_le_right _ _)
    have hne0 : ¬ r0 * fair_supply a0 a1 r0 r1 p.shares_total_supply /
        p.shares_total_supply = 0 := by
      simp only [actual_amount] at hact0
      omega
    have hne1 : ¬ r1 * fair_supply a0 a1 r0 r1 p.shares_total_supply /
        p.shares_total_supply = 0 := by
      simp only [actual_amount] at hact1
      omega
    have hfne : ¬ fair_supply a0 a1 r0 r1 p.shares_total_supply = 0 := by
      intro hf
      rw [hf] at hne0
      simp at hne0
    unfold SimplePool.add_liquidity
    rw [if_neg hguard, if_pos hT, hamts,
      fair_supply_loop_two a0 a1 r0 r1 p.shares_total_supply ha0 ha1 hr0 hr1 hM]
    simp only [actual_loop_two_ok r0 r1
      (fair_supply a0 a1 r0 r1 p.shares_total_supply) p.shares_total_supply
      (lt_of_le_of_lt hb0 ha0lt) (lt_of_le_of_lt hb1 ha1lt) hne0 hne1,
      as_u128, if_pos hflt, SimplePool.mint_shares, if_neg hfne, actual_amount]

/-- Witness for the amended C1: the spec's worked example, through the theorem
itself. -/
theorem C1_witness :
    examplePool.add_liquidity "lp" [500000, 400000] =
      .ok (examplePoolAfter, [400000, 400000], 400000000000000000000000) :=
  (C1_add_liquidity examplePool "lp" 1000000 1000000 500000 400000 rfl rfl
    (by decide) (by decide) (by decide) (by decide) (by decide) (by decide)).2.2.2.2

/-- Claim C5: in the synchronous phase of `withdraw(token, amount,
unregister)` on a registered account whose rent covers its storage — a zero
requested amount resolves to the full current balance; the call fails with
IllegalWithdrawAmount (E29) when the resolved amount is still zero, with
NotEnoughFunds (E22) when it exceeds the balance, with TokenNotRegistered
(E21) when no entry exists, and — for `unregister = some true` — with
NonZeroTokenBalance (E24) when the debit did not zero the entry; only when
every check passes is the debited (and possibly deregistered) account
persisted and the resolved amount handed to the external transfer. -/
theorem C5_withdraw_sync (bc : Nat) (c : Contract) (sender token : String)
    (amt : Nat) (unreg : Option Bool) (acc : Account)
    (hacc : c.internal_get_account sender = some acc)
    (hst : Account.storage_usage bc acc ≤ acc.near_amount) :
    (acc.get_balance token = none →
      Contract.withdraw bc c sender token amt unreg = .error .tokenNotRegistered)
    ∧ (∀ b resolved, acc.get_balance token = some b →
        resolved = (if amt = 0 then b else amt) →
        (resolved = 0 →
          Contract.withdraw bc c sender token amt unreg = .error .illegalWithdrawAmount)
        ∧ (b < resolved →
            Contract.withdraw bc c sender token amt unreg = .error .notEnoughTokens)
        ∧ (0 < resolved → resolved ≤ b → unreg = some true → b ≠ resolved →
            Contract.withdraw bc c sender token amt unreg = .error .nonZeroTokenBalance)
        ∧ (0 < resolved → resolved ≤ b → (unreg = some true → b = resolved) →
            Contract.withdraw bc c sender token amt unreg =
              .ok ({ c with accounts := mapInsert c.accounts sender (debited_account acc token b resolved unreg) }, resolved))) := by
  constructor
  · intro hnone
    have hnone' : mapGet acc.tokens token = none := hnone
    rw [withdraw_eval bc c sender token amt unreg acc hacc]
    by_cases h0 : amt = 0
    · simp only [if_pos h0, hnone]
    · simp only [if_neg h0, account_withdraw_none acc token amt hnone']
  · intro b resolved hb hres
    have hb' : mapGet acc.tokens token = some b := hb
    have hresolve : (if amt = 0 then
        (match acc.get_balance token with
          | some b => Except.ok b
          | none => Except.error Err.tokenNotRegistered)
        else Except.ok amt) = Except.ok resolved := by
      by_cases h0 : amt = 0
      · rw [if_pos h0, hb, hres, if_pos h0]
      · rw [if_neg h0, hres, if_neg h0]
    refine ⟨?_, ?_, ?_, ?_⟩
    · intro hzero
      rw [withdraw_eval bc c sender token amt unreg acc hacc]
      simp only [hresolve]
      rw [if_pos hzero]
    · intro hlt
      rw [withdraw_eval bc c sender token amt unreg acc hacc]
      simp only [hresolve,
        account_withdraw_insufficient acc token b resolved hb' hlt]
      rw [if_neg (by omega)]
    · intro hpos hle hu hne
      have hunreg : ({ acc with tokens := mapInsert acc.tokens token (b - resolved) } : Account).unregister token = .error .nonZeroTokenBalance := by
        unfold Account.unregister
        simp only [mapGet_mapInsert_self, Option.getD_some]
        rw [if_neg (by omega)]
      rw [withdraw_eval bc c sender token amt unreg acc hacc]
      simp only [hresolve]
      rw [if_neg (by omega)]
      simp only [account_withdraw_ok acc token b resolved hb' hle, if_pos hu, hunreg]
    · intro hpos hle himp
      have hstd := debited_account_storage bc acc token b resolved unreg hb' hst
      rw [withdraw_eval bc c sender token amt unreg acc hacc]
      simp only [hresolve]
      rw [if_neg (by omega)]
      by_cases hu : unreg = some true
      · have hbr : b = resolved := himp hu
        have hdeb : debited_account acc token b resolved unreg =
            { acc with tokens := mapRemove (mapInsert acc.tokens token (b - resolved)) token } := by
          unfold debited_account
          rw [if_pos hu]
        have hunreg : ({ acc with tokens := mapInsert acc.tokens token (b - resolved) } : Account).unregister token =
            .ok { acc with tokens := mapRemove (mapInsert acc.tokens token (b - resolved)) token } :=
          account_unregister_zero _ token
            (by simp only [mapGet_mapInsert_self, Option.getD_some]; omega)
        rw [hdeb] at hstd
        simp only [account_withdraw_ok acc token b resolved hb' hle, if_pos hu,
          hunreg, internal_save_account_ok bc c sender _ hstd, hdeb]
      · have hdeb : debited_account acc token b resolved unreg =
            { acc with tokens := mapInsert acc.tokens token (b - resolved) } := by
          unfold debited_account
          rw [if_neg hu]
        rw [hdeb] at hstd
        simp only [account_withdraw_ok acc token b resolved hb' hle, if_neg hu,
          internal_save_account_ok bc c sender _ hstd, hdeb]

/-- Witness for C5: alice withdraws her full balance of 7 `token-a` with
deregistration; the debited (and deregistered) account is persisted and 7 is
handed to the transfer. -/
theorem C5_witness :
    Contract.withdraw 1 contractC3 "alice" "token-a" 7 (some true) =
      .ok ({ contractC3 with accounts := mapInsert contractC3.accounts "alice" (debited_account accC3 "token-a" 7 7 (some true)) }, 7) :=
  ((C5_withdraw_sync 1 contractC3 "alice" "token-a" 7 (some true) accC3 rfl
    (by decide)).2 7 7 rfl rfl).2.2.2 (by decide) (by decide) (fun _ => rfl)

/-- Claim C8: for every pool reachable from creation through any sequence of
successful `share_register`, `add_liquidity`, `remove_liquidity` and
`share_transfer` operations, the sum of all share balances equals
`shares_total_supply`. -/
theorem C8_shares_sum (p : SimplePool) (h : Reachable p) :
    sumVals p.shares = p.shares_total_supply := by
  induction h with
  | created tokens fee ef rf q hq => exact inv_new tokens fee ef rf q hq
  | registered q acc q' _ hstep ih => exact inv_share_register q acc q' hstep ih
  | added q s a r _ hstep ih => exact inv_add_liquidity q s a r hstep ih
  | removed q s sh ma r _ hstep ih => exact inv_remove_liquidity q s sh ma r hstep ih
  | transferred q f t a q' _ hstep ih => exact inv_share_transfer q f t a q' hstep ih

/-- Witness for C8 at a freshly created pool. -/
theorem C8_witness : sumVals pool0.shares = pool0.shares_total_supply :=
  C8_shares_sum pool0
    (Reachable.created ["token-a", "token-b"] 30 0 0 pool0 rfl)

end RefExchange
